import Mathlib

/-!
Verification of the metrics-emission demo (promlabs/otel-instrumentation-example)
against its natural-language specification.

The repository's own code (`main.go`, `createAndRecordMetrics`) only wires a
meter provider and issues a fixed sequence of recording calls; the instrument
semantics (Measurement Store), the periodic exporter loop and the shutdown
coordinator live in the externally supplied metrics SDK, which the spec models
abstractly (sections 3-5 and 8).  Accordingly, the store / exporter / shutdown
semantics below are modelled from the spec, while the concrete recording
sequences, bucket boundaries, attribute sets and the observable-gauge callback
are translated from the source of `createAndRecordMetrics`.
-/

/- ## Errors (spec section 7) -/

/-- Modelled from the spec: error taxonomy of section 7 (the cases the claims
exercise). -/
inductive MetricError where
  | invalidValue
  | callbackError
  | exportError
  | shutdownTimeout
deriving DecidableEq, Repr

/- ## Counter (spec section 4.2: sum; fails with InvalidValueError on a
     negative delta, rejecting that one recording and leaving state unchanged) -/

/-- Modelled from the spec: a single Counter recording.  A negative delta
fails with `InvalidValueError`; a non-negative delta is added to the
accumulated sum. -/
def counterRecord (s : Int) (v : Int) : Except MetricError Int :=
  if v < 0 then .error .invalidValue else .ok (s + v)

/-- Modelled from the spec: the state after a Counter recording — an error
rejects only that one recording, so the accumulated state is unchanged. -/
def counterStep (s : Int) (v : Int) : Int :=
  match counterRecord s v with
  | .ok s2 => s2
  | .error _ => s

/-- Modelled from the spec: running a whole sequence of Counter recordings. -/
def counterRun (s : Int) (vs : List Int) : Int :=
  vs.foldl counterStep s

/- ## UpDownCounter (spec section 4.2: signed sum, negative deltas accepted) -/

/-- Modelled from the spec: a single UpDownCounter recording; never fails. -/
def upDownRecord (s : Int) (v : Int) : Except MetricError Int :=
  .ok (s + v)

/-- Modelled from the spec: running a sequence of UpDownCounter recordings. -/
def upDownRun (s : Int) (vs : List Int) : Int :=
  vs.foldl (fun a v => a + v) s

/- ## The demo's recording sequences (source: createAndRecordMetrics) -/

/-- Source `counter.Add(ctx, 1); counter.Add(ctx, 23)` on
`demo.handled_items`. -/
def handledItemsDeltas : List Int := [1, 23]

/-- Source `upDownCounter.Add(ctx, 5); upDownCounter.Add(ctx, -2)` on
`demo.queue_length`. -/
def queueLengthDeltas : List Int := [5, -2]

/- ## Helper lemmas -/

theorem counterStep_eq (s v : Int) :
    counterStep s v = if v < 0 then s else s + v := by
  unfold counterStep counterRecord
  by_cases h : v < 0 <;> simp [h]

theorem counterRun_eq_sum_filter (s : Int) (vs : List Int) :
    counterRun s vs = s + (vs.filter (fun v => decide (0 ≤ v))).sum := by
  induction vs generalizing s with
  | nil => simp [counterRun]
  | cons v vs ih =>
    have hstep : counterRun s (v :: vs) = counterRun (counterStep s v) vs := rfl
    rw [hstep, ih, counterStep_eq]
    by_cases h : v < 0
    · have h0 : ¬ (0 ≤ v) := by omega
      simp [h, h0]
    · have h0 : 0 ≤ v := by omega
      simp [h, h0]
      ring

theorem filter_nonneg_sum_nonneg (vs : List Int) :
    0 ≤ (vs.filter (fun v => decide (0 ≤ v))).sum := by
  apply List.sum_nonneg
  intro x hx
  have := List.of_mem_filter hx
  simpa using this

theorem counterRun_append (s : Int) (vs ws : List Int) :
    counterRun s (vs ++ ws) = counterRun (counterRun s vs) ws := by
  simp [counterRun, List.foldl_append]

theorem upDownRun_eq_sum (s : Int) (vs : List Int) :
    upDownRun s vs = s + vs.sum := by
  induction vs generalizing s with
  | nil => simp [upDownRun]
  | cons v vs ih =>
    have hstep : upDownRun s (v :: vs) = upDownRun (s + v) vs := rfl
    rw [hstep, ih]
    simp
    ring

/- ## Claim theorems -/

/-- C1: for `demo.handled_items`, record(1) then record(23) yields cumulative
value 24; in general the cumulative Counter value after any sequence of
recordings equals the starting value plus the sum of all non-negative deltas
recorded, and the exposed cumulative value is monotonically non-decreasing
across snapshots (both from any start, and along any extension of the
recording sequence). -/
theorem counter_cumulative_sum :
    counterRun 0 handledItemsDeltas = 24 ∧
    (∀ (s : Int) (vs : List Int),
      counterRun s vs = s + (vs.filter (fun v => decide (0 ≤ v))).sum) ∧
    (∀ (s : Int) (vs : List Int), s ≤ counterRun s vs) ∧
    (∀ (s : Int) (vs ws : List Int),
      counterRun s vs ≤ counterRun s (vs ++ ws)) := by
  refine ⟨by decide, counterRun_eq_sum_filter, ?_, ?_⟩
  · intro s vs
    rw [counterRun_eq_sum_filter]
    have := filter_nonneg_sum_nonneg vs
    omega
  · intro s vs ws
    rw [counterRun_append]
    rw [counterRun_eq_sum_filter (counterRun s vs) ws]
    have := filter_nonneg_sum_nonneg ws
    omega

/-- C2: for `demo.queue_length`, record(5) then record(-2) yields value 3; in
general the UpDownCounter value after any sequence of deltas equals the
starting value plus the signed sum of the deltas, and recording a negative
delta never fails. -/
theorem upDown_signed_sum :
    upDownRun 0 queueLengthDeltas = 3 ∧
    (∀ (s : Int) (vs : List Int), upDownRun s vs = s + vs.sum) ∧
    (∀ (s v : Int), upDownRecord s v = .ok (s + v)) := by
  exact ⟨by decide, upDownRun_eq_sum, fun s v => rfl⟩

/- ## Histogram (spec sections 3 and 4.2: running count, sum, and per-bucket
     counts against boundaries fixed at creation; a value goes into the first
     bucket whose upper boundary exceeds it, and values at or above the last
     boundary go to the overflow bucket).  The source records float64 values;
     they are embedded as exact rationals. -/

/-- Modelled from the spec: the index of the bucket receiving value `v` among
boundaries `bs` — the number of leading boundaries that `v` has reached,
i.e. bucket `i` covers values below boundary `i` (and at or above boundary
`i - 1`). -/
def bucketIndex (bs : List ℚ) (v : ℚ) : Nat :=
  (bs.takeWhile (fun b => decide (b ≤ v))).length

/-- Modelled from the spec: histogram aggregation state — running count, running
sum, and per-bucket counts. -/
structure HistState where
  count : Nat
  sum : ℚ
  buckets : List Nat
deriving DecidableEq, Repr

/-- Modelled from the spec: the empty histogram state for boundaries `bs`
(`bs.length + 1` buckets, the last one being the overflow bucket). -/
def histInit (bs : List ℚ) : HistState :=
  { count := 0, sum := 0, buckets := List.replicate (bs.length + 1) 0 }

/-- Increment the counter at position `i` of a bucket-count list. -/
def incrAt : List Nat → Nat → List Nat
  | [], _ => []
  | c :: cs, 0 => (c + 1) :: cs
  | c :: cs, Nat.succ i => c :: incrAt cs i

/-- Modelled from the spec: one histogram recording — bucket increment plus
sum/count update. -/
def histRecord (bs : List ℚ) (h : HistState) (v : ℚ) : HistState :=
  { count := h.count + 1
    sum := h.sum + v
    buckets := incrAt h.buckets (bucketIndex bs v) }

/-- Modelled from the spec: running a sequence of histogram recordings. -/
def histRun (bs : List ℚ) (h : HistState) (vs : List ℚ) : HistState :=
  vs.foldl (histRecord bs) h

/-- Source bucket boundaries of `demo.request.duration`:
`metric.WithExplicitBucketBoundaries(0.05, 0.1, 0.25, 0.5, 1, 2, 5)`. -/
def demoBoundaries : List ℚ := [0.05, 0.1, 0.25, 0.5, 1, 2, 5]

/-- Source recording sequence on `demo.request.duration`:
`histogram.Record` of 0.023, 1.632, 0.345, 0.123. -/
def demoDurations : List ℚ := [0.023, 1.632, 0.345, 0.123]

theorem incrAt_length (l : List Nat) (i : Nat) : (incrAt l i).length = l.length := by
  induction l generalizing i with
  | nil => rfl
  | cons c cs ih =>
    cases i with
    | zero => rfl
    | succ j => simp [incrAt, ih]

theorem incrAt_sum (l : List Nat) (i : Nat) (h : i < l.length) :
    (incrAt l i).sum = l.sum + 1 := by
  induction l generalizing i with
  | nil => simp at h
  | cons c cs ih =>
    cases i with
    | zero => simp [incrAt]; omega
    | succ j =>
      have hj : j < cs.length := by simpa using h
      simp [incrAt, ih j hj]
      omega

theorem bucketIndex_le (bs : List ℚ) (v : ℚ) : bucketIndex bs v ≤ bs.length := by
  unfold bucketIndex
  induction bs with
  | nil => simp
  | cons b t ih =>
    by_cases h : (b ≤ v)
    · simp [List.takeWhile_cons, h]
      omega
    · simp [List.takeWhile_cons, h]

theorem histRun_inv (bs : List ℚ) (h : HistState) (vs : List ℚ)
    (hlen : h.buckets.length = bs.length + 1) :
    (histRun bs h vs).count = h.count + vs.length ∧
    (histRun bs h vs).sum = h.sum + vs.sum ∧
    (histRun bs h vs).buckets.length = bs.length + 1 ∧
    (histRun bs h vs).buckets.sum = h.buckets.sum + vs.length := by
  induction vs generalizing h with
  | nil => simp [histRun, hlen]
  | cons v vs ih =>
    have hstep : histRun bs h (v :: vs) = histRun bs (histRecord bs h v) vs := rfl
    have hlen2 : (histRecord bs h v).buckets.length = bs.length + 1 := by
      simp [histRecord, incrAt_length, hlen]
    obtain ⟨h1, h2, h3, h4⟩ := ih (histRecord bs h v) hlen2
    have hidx : bucketIndex bs v < h.buckets.length := by
      have := bucketIndex_le bs v
      omega
    refine ⟨?_, ?_, ?_, ?_⟩
    · rw [hstep, h1]; simp [histRecord]; omega
    · rw [hstep, h2]; simp [histRecord]; ring
    · rw [hstep, h3]
    · rw [hstep, h4]
      simp [histRecord, incrAt_sum h.buckets (bucketIndex bs v) hidx]
      omega

theorem bucketIndex_val1 : bucketIndex demoBoundaries 0.023 = 0 := by
  have n1 : ¬ ((0.05 : ℚ) ≤ 0.023) := by norm_num
  simp [bucketIndex, demoBoundaries, List.takeWhile, n1]

theorem bucketIndex_val2 : bucketIndex demoBoundaries 1.632 = 5 := by
  have p1 : (0.05 : ℚ) ≤ 1.632 := by norm_num
  have p2 : (0.1 : ℚ) ≤ 1.632 := by norm_num
  have p3 : (0.25 : ℚ) ≤ 1.632 := by norm_num
  have p4 : (0.5 : ℚ) ≤ 1.632 := by norm_num
  have p5 : (1 : ℚ) ≤ 1.632 := by norm_num
  have n6 : ¬ ((2 : ℚ) ≤ 1.632) := by norm_num
  simp [bucketIndex, demoBoundaries, List.takeWhile, p1, p2, p3, p4, p5, n6]

theorem bucketIndex_val3 : bucketIndex demoBoundaries 0.345 = 3 := by
  have p1 : (0.05 : ℚ) ≤ 0.345 := by norm_num
  have p2 : (0.1 : ℚ) ≤ 0.345 := by norm_num
  have p3 : (0.25 : ℚ) ≤ 0.345 := by norm_num
  have n4 : ¬ ((0.5 : ℚ) ≤ 0.345) := by norm_num
  simp [bucketIndex, demoBoundaries, List.takeWhile, p1, p2, p3, n4]

theorem bucketIndex_val4 : bucketIndex demoBoundaries 0.123 = 2 := by
  have p1 : (0.05 : ℚ) ≤ 0.123 := by norm_num
  have p2 : (0.1 : ℚ) ≤ 0.123 := by norm_num
  have n3 : ¬ ((0.25 : ℚ) ≤ 0.123) := by norm_num
  simp [bucketIndex, demoBoundaries, List.takeWhile, p1, p2, n3]

theorem demoHist_buckets :
    (histRun demoBoundaries (histInit demoBoundaries) demoDurations).buckets
      = [1, 0, 1, 1, 0, 1, 0, 0] := by
  simp only [histRun, demoDurations, List.foldl_cons, List.foldl_nil, histRecord,
    bucketIndex_val1, bucketIndex_val2, bucketIndex_val3, bucketIndex_val4]
  rfl

/-- C3: for `demo.request.duration` with boundaries [0.05, 0.1, 0.25, 0.5, 1,
2, 5], recording 0.023, 1.632, 0.345, 0.123 yields count 4, sum 2.123 (the
recorded floats embedded as exact rationals, so equality holds a fortiori
within floating-point tolerance), and per-bucket counts [1,0,1,1,0,1,0,0]
whose bucket [0, 0.05) holds exactly one point, namely 0.023 (which falls
into bucket index 0); in general, for every histogram and recording sequence,
the count equals the number of recordings, the running sum equals the sum of
recorded values, the bucket counts sum to the total count, and every value at
or above the last demo boundary 5 goes to the overflow bucket (index 7). -/
theorem histogram_bucket_sum :
    (histRun demoBoundaries (histInit demoBoundaries) demoDurations).count = 4 ∧
    (histRun demoBoundaries (histInit demoBoundaries) demoDurations).sum = 2.123 ∧
    (histRun demoBoundaries (histInit demoBoundaries) demoDurations).buckets
      = [1, 0, 1, 1, 0, 1, 0, 0] ∧
    bucketIndex demoBoundaries 0.023 = 0 ∧
    (∀ (bs vs : List ℚ),
      (histRun bs (histInit bs) vs).count = vs.length ∧
      (histRun bs (histInit bs) vs).sum = vs.sum ∧
      (histRun bs (histInit bs) vs).buckets.sum
        = (histRun bs (histInit bs) vs).count) ∧
    (∀ v : ℚ, 5 ≤ v → bucketIndex demoBoundaries v = 7) := by
  have hlen0 : (histInit demoBoundaries).buckets.length = demoBoundaries.length + 1 := by
    simp [histInit]
  obtain ⟨hc, hs, _, _⟩ := histRun_inv demoBoundaries (histInit demoBoundaries) demoDurations hlen0
  refine ⟨?_, ?_, demoHist_buckets, bucketIndex_val1, ?_, ?_⟩
  · rw [hc]; rfl
  · rw [hs]
    show (0 : ℚ) + demoDurations.sum = 2.123
    norm_num [demoDurations]
  · intro bs vs
    have hlen : (histInit bs).buckets.length = bs.length + 1 := by
      simp [histInit]
    obtain ⟨h1, h2, h3, h4⟩ := histRun_inv bs (histInit bs) vs hlen
    refine ⟨by simpa [histInit] using h1, by simpa [histInit] using h2, ?_⟩
    rw [h4, h1]
    simp [histInit]
  · intro v hv
    have h1 : (0.05 : ℚ) ≤ v := by norm_num; linarith
    have h2 : (0.1 : ℚ) ≤ v := by norm_num; linarith
    have h3 : (0.25 : ℚ) ≤ v := by norm_num; linarith
    have h4 : (0.5 : ℚ) ≤ v := by norm_num; linarith
    have h5 : (1 : ℚ) ≤ v := by linarith
    have h6 : (2 : ℚ) ≤ v := by linarith
    simp [bucketIndex, demoBoundaries, List.takeWhile_cons, h1, h2, h3, h4, h5, h6, hv]

/-- Witness for C3's overflow clause at the concrete value 6. -/
theorem histogram_bucket_sum_witness : bucketIndex demoBoundaries 6 = 7 :=
  histogram_bucket_sum.2.2.2.2.2 6 (by norm_num)

/- ## Gauge (spec section 3: last-write-wins value) -/

/-- Modelled from the spec: a Gauge recording overwrites the previous value. -/
def gaugeRecord (_prev : Option Int) (v : Int) : Option Int :=
  some v

/-- Modelled from the spec: running a sequence of Gauge recordings. -/
def gaugeRun (s : Option Int) (vs : List Int) : Option Int :=
  vs.foldl gaugeRecord s

/-- C4: a Gauge snapshot reflects only the most recently recorded value —
after any recording sequence ending in `v` the value is `v`, independent of
the initial state and of all earlier recordings; in particular the demo's
single `gauge.Record(ctx, now)` on `demo.start_time` yields `now`. -/
theorem gauge_last_write_wins :
    (∀ (s : Option Int) (vs : List Int) (v : Int),
      gaugeRun s (vs ++ [v]) = some v) ∧
    (∀ (s1 s2 : Option Int) (vs1 vs2 : List Int) (v : Int),
      gaugeRun s1 (vs1 ++ [v]) = gaugeRun s2 (vs2 ++ [v])) ∧
    (∀ now : Int, gaugeRun none [now] = some now) := by
  have hlast : ∀ (s : Option Int) (vs : List Int) (v : Int),
      gaugeRun s (vs ++ [v]) = some v := by
    intro s vs v
    simp [gaugeRun, List.foldl_append, gaugeRecord]
  exact ⟨hlast, fun s1 s2 vs1 vs2 v => (hlast s1 vs1 v).trans (hlast s2 vs2 v).symm,
    fun now => rfl⟩

/- ## AttributeSet (spec section 3: an ordered set of (key, value) pairs,
     equal iff same pairs regardless of insertion order; the aggregation key
     within an instrument) -/

/-- The attribute strings occurring in the demo (`String.lt` does not reduce
in the kernel, so the six source literals are embedded as an enumeration whose
order matches the lexicographic order of the strings they stand for):
`demoMethod` = "demo.method", `demoPath` = "demo.path", `get` = "GET",
`post` = "POST", `items` = "/items", `users` = "/users". -/
inductive AttrString where
  | demoMethod
  | demoPath
  | get
  | post
  | items
  | users
deriving DecidableEq, Repr

/-- Rank of an attribute string, realizing the order of the underlying string
literals ("GET" < "POST", "/items" < "/users", "demo.method" < "demo.path"). -/
def AttrString.rank : AttrString → Nat
  | .demoMethod => 0
  | .demoPath => 1
  | .get => 2
  | .post => 3
  | .items => 4
  | .users => 5

theorem AttrString.rank_injective : Function.Injective AttrString.rank := by
  intro a b h
  cases a <;> cases b <;> simp_all [AttrString.rank]

instance : LinearOrder AttrString :=
  LinearOrder.lift' AttrString.rank AttrString.rank_injective

/-- An attribute key-value pair (the demo only uses string attributes). -/
abbrev AttrPair := AttrString × AttrString

/-- Modelled from the spec: the canonical order on attribute pairs (by key,
then by value) that makes an AttributeSet an ordered set. -/
def attrLe (a b : AttrPair) : Prop :=
  a.1 < b.1 ∨ (a.1 = b.1 ∧ a.2 ≤ b.2)

instance : DecidableRel attrLe := fun a b => by
  unfold attrLe; infer_instance

instance : IsTotal AttrPair attrLe where
  total a b := by
    rcases lt_trichotomy a.1 b.1 with h | h | h
    · exact Or.inl (Or.inl h)
    · rcases le_total a.2 b.2 with h2 | h2
      · exact Or.inl (Or.inr ⟨h, h2⟩)
      · exact Or.inr (Or.inr ⟨h.symm, h2⟩)
    · exact Or.inr (Or.inl h)

instance : IsTrans AttrPair attrLe where
  trans a b c hab hbc := by
    rcases hab with h1 | ⟨h1, h1v⟩ <;> rcases hbc with h2 | ⟨h2, h2v⟩
    · exact Or.inl (h1.trans h2)
    · exact Or.inl (lt_of_lt_of_le h1 (le_of_eq h2))
    · exact Or.inl (lt_of_le_of_lt (le_of_eq h1) h2)
    · exact Or.inr ⟨h1.trans h2, h1v.trans h2v⟩

instance : IsAntisymm AttrPair attrLe where
  antisymm a b hab hba := by
    rcases hab with h1 | ⟨h1, h1v⟩
    · rcases hba with h2 | ⟨h2, h2v⟩
      · exact absurd h2 (lt_asymm h1)
      · exact absurd h1 (by simp [h2])
    · rcases hba with h2 | ⟨h2, h2v⟩
      · exact absurd h2 (by simp [h1])
      · exact Prod.ext h1 (le_antisymm h1v h2v)

/-- Modelled from the spec: an AttributeSet is the canonical (sorted) form of
the attribute list passed at the record call; insertion order is forgotten. -/
def mkAttributeSet (l : List AttrPair) : List AttrPair :=
  l.insertionSort attrLe

/-- Modelled from the spec: per-attribute-set accumulation inside one Counter
instrument, keyed by canonical AttributeSet; a new key appends a DataPoint. -/
def storeAdd (store : List (List AttrPair × Int)) (key : List AttrPair) (v : Int) :
    List (List AttrPair × Int) :=
  match store with
  | [] => [(key, v)]
  | (k, s) :: rest =>
    if k = key then (k, s + v) :: rest else (k, s) :: storeAdd rest key v

/-- Modelled from the spec: record a Counter delta under an attribute list;
the canonicalized AttributeSet is the aggregation key. -/
def recordWithAttrs (store : List (List AttrPair × Int)) (attrs : List AttrPair)
    (v : Int) : List (List AttrPair × Int) :=
  storeAdd store (mkAttributeSet attrs) v

/-- Source: the four `partitionedCounter.Add` calls on `demo.request.count`
with their (demo.method, demo.path) attribute combinations. -/
def demoRequestCount : List (List AttrPair × Int) :=
  recordWithAttrs (recordWithAttrs (recordWithAttrs (recordWithAttrs []
    [(.demoMethod, .get), (.demoPath, .items)] 58)
    [(.demoMethod, .post), (.demoPath, .items)] 81)
    [(.demoMethod, .get), (.demoPath, .users)] 33)
    [(.demoMethod, .post), (.demoPath, .users)] 97

theorem mkAttributeSet_eq_iff (l1 l2 : List AttrPair) :
    mkAttributeSet l1 = mkAttributeSet l2 ↔ l1.Perm l2 := by
  constructor
  · intro h
    have p1 : l1.Perm (mkAttributeSet l1) := (List.perm_insertionSort attrLe l1).symm
    have p2 : (mkAttributeSet l2).Perm l2 := List.perm_insertionSort attrLe l2
    rw [h] at p1
    exact p1.trans p2
  · intro h
    exact List.eq_of_perm_of_sorted
      ((List.perm_insertionSort attrLe l1).trans
        (h.trans (List.perm_insertionSort attrLe l2).symm))
      (List.sorted_insertionSort attrLe l1)
      (List.sorted_insertionSort attrLe l2)

/-- C5: AttributeSet equality is insertion-order-independent (two canonical
AttributeSets are equal iff the underlying pair lists are permutations of one
another); the AttributeSet is the aggregation key, so recording the same
pairs in a different key order aggregates into the same DataPoint, and the
demo's four recordings 58, 81, 33, 97 under four distinct (demo.method,
demo.path) combinations produce four separate DataPoints with exactly those
values. -/
theorem attributeSet_aggregation_key :
    (∀ l1 l2 : List AttrPair, mkAttributeSet l1 = mkAttributeSet l2 ↔ l1.Perm l2) ∧
    (∀ (store : List (List AttrPair × Int)) (attrs1 attrs2 : List AttrPair) (v : Int),
      attrs1.Perm attrs2 →
      recordWithAttrs store attrs1 v = recordWithAttrs store attrs2 v) ∧
    demoRequestCount =
      [([(.demoMethod, .get), (.demoPath, .items)], 58),
       ([(.demoMethod, .post), (.demoPath, .items)], 81),
       ([(.demoMethod, .get), (.demoPath, .users)], 33),
       ([(.demoMethod, .post), (.demoPath, .users)], 97)] := by
  refine ⟨mkAttributeSet_eq_iff, ?_, ?_⟩
  · intro store attrs1 attrs2 v h
    unfold recordWithAttrs
    rw [(mkAttributeSet_eq_iff attrs1 attrs2).mpr h]
  · decide

/-- Witness for C5's permutation clause: swapping the key order of the two
attributes of the first demo recording aggregates into the same DataPoint. -/
theorem attributeSet_aggregation_key_witness :
    recordWithAttrs [] [(.demoMethod, .get), (.demoPath, .items)] 58 =
    recordWithAttrs [] [(.demoPath, .items), (.demoMethod, .get)] 58 :=
  attributeSet_aggregation_key.2.1 []
    [(.demoMethod, .get), (.demoPath, .items)]
    [(.demoPath, .items), (.demoMethod, .get)] 58
    (List.Perm.swap ((AttrString.demoPath, AttrString.items) : AttrPair)
      ((AttrString.demoMethod, AttrString.get) : AttrPair) [])

/- ## C6: Counter rejects a negative delta -/

/-- C6: recording a negative delta on a Counter fails with
`InvalidValueError`; the error rejects only that one recording — the
accumulated state is unchanged and the rest of the recording sequence
proceeds exactly as if the bad recording were absent (the error is returned
as a value, so the process does not crash). -/
theorem counter_negative_delta_rejected (v : Int) (hv : v < 0) :
    (∀ s : Int, counterRecord s v = .error .invalidValue) ∧
    (∀ s : Int, counterStep s v = s) ∧
    (∀ (s : Int) (vs ws : List Int),
      counterRun s (vs ++ v :: ws) = counterRun s (vs ++ ws)) := by
  have hrec : ∀ s : Int, counterRecord s v = .error .invalidValue := by
    intro s
    simp [counterRecord, hv]
  have hstep : ∀ s : Int, counterStep s v = s := by
    intro s
    rw [counterStep_eq]
    simp [hv]
  refine ⟨hrec, hstep, ?_⟩
  intro s vs ws
  rw [counterRun_append, counterRun_append]
  have : counterRun (counterRun s vs) (v :: ws)
      = counterRun (counterStep (counterRun s vs) v) ws := rfl
  rw [this, hstep]

/-- Witness for C6 at the concrete delta -1: the recording errors, state 5 is
kept, and the surrounding sequence [1], [23] is unaffected. -/
theorem counter_negative_delta_rejected_witness :
    counterRecord 0 (-1) = .error .invalidValue ∧
    counterStep 5 (-1) = 5 ∧
    counterRun 0 ([1] ++ (-1) :: [23]) = counterRun 0 ([1] ++ [23]) :=
  ⟨(counter_negative_delta_rejected (-1) (by decide)).1 0,
   (counter_negative_delta_rejected (-1) (by decide)).2.1 5,
   (counter_negative_delta_rejected (-1) (by decide)).2.2 0 [1] [23]⟩

/- ## Periodic exporter (spec section 4.4: export failures are logged and do
     not stop the timer loop; each cycle's snapshot is export-attempted
     exactly once and then discarded; exporters are independent) -/

/-- Modelled from the spec: the log of one collection cycle — which snapshot
was export-attempted and whether delivery succeeded. -/
structure CycleLog where
  snapshotId : Nat
  succeeded : Bool
deriving DecidableEq, Repr

/-- Modelled from the spec: exporter loop state — the next cycle number and
the log of export attempts so far. -/
structure ExporterState where
  cycle : Nat
  attempts : List CycleLog
deriving DecidableEq, Repr

/-- Modelled from the spec: one timer tick — collect, snapshot, attempt the
export once; the outcome (`deliver` succeeding or not for this cycle) is
logged and discarded, and the loop advances regardless. -/
def exporterTick (deliver : Nat → Bool) (s : ExporterState) : ExporterState :=
  { cycle := s.cycle + 1
    attempts := s.attempts ++ [{ snapshotId := s.cycle, succeeded := deliver s.cycle }] }

/-- Modelled from the spec: the exporter timer loop run for `n` cycles. -/
def exporterRun (deliver : Nat → Bool) : Nat → ExporterState
  | 0 => { cycle := 0, attempts := [] }
  | n + 1 => exporterTick deliver (exporterRun deliver n)

/-- Modelled from the spec: two independently scheduled exporters fanned out
from the coordinator; each gets every cycle's snapshot, and their executions
are isolated. -/
def pipelineRun (d1 d2 : Nat → Bool) (n : Nat) : ExporterState × ExporterState :=
  (exporterRun d1 n, exporterRun d2 n)

theorem exporterRun_ids (d : Nat → Bool) (n : Nat) :
    (exporterRun d n).attempts.map CycleLog.snapshotId = List.range n ∧
    (exporterRun d n).cycle = n := by
  induction n with
  | zero => exact ⟨rfl, rfl⟩
  | succ m ih =>
    obtain ⟨h1, h2⟩ := ih
    constructor
    · simp [exporterRun, exporterTick, h1, h2, List.range_succ]
    · simp [exporterRun, exporterTick, h2]

theorem exporterRun_outcomes (d : Nat → Bool) (n : Nat) :
    (exporterRun d n).attempts.map CycleLog.succeeded = (List.range n).map d := by
  induction n with
  | zero => rfl
  | succ m ih =>
    have hc := (exporterRun_ids d m).2
    simp [exporterRun, exporterTick, ih, hc, List.range_succ]

/-- C7: an export failure never stops the exporter's timer loop — after `n`
cycles every exporter has export-attempted each of the `n` snapshots exactly
once (its attempt log is exactly `0, 1, ..., n-1`), whatever the pattern of
failures; each cycle's outcome is just that cycle's delivery result, so
cycles are independent; and one exporter's failures leave a second exporter's
state completely unaffected — in particular, with the first destination
unreachable for 3 consecutive cycles, the first exporter's 3 attempts all
fail while the second exporter keeps succeeding every cycle. -/
theorem export_failure_isolation :
    (∀ (d : Nat → Bool) (n : Nat),
      (exporterRun d n).attempts.map CycleLog.snapshotId = List.range n ∧
      (exporterRun d n).attempts.map CycleLog.succeeded = (List.range n).map d) ∧
    (∀ (d1 d1a d2 : Nat → Bool) (n : Nat),
      (pipelineRun d1 d2 n).2 = (pipelineRun d1a d2 n).2) ∧
    ((pipelineRun (fun _ => false) (fun _ => true) 3).1.attempts.map CycleLog.succeeded
        = [false, false, false] ∧
     (pipelineRun (fun _ => false) (fun _ => true) 3).2.attempts.map CycleLog.succeeded
        = [true, true, true] ∧
     (pipelineRun (fun _ => false) (fun _ => true) 3).1.attempts.map CycleLog.snapshotId
        = [0, 1, 2] ∧
     (pipelineRun (fun _ => false) (fun _ => true) 3).2.attempts.map CycleLog.snapshotId
        = [0, 1, 2]) := by
  refine ⟨fun d n => ⟨(exporterRun_ids d n).1, exporterRun_outcomes d n⟩,
    fun d1 d1a d2 n => rfl, ?_, ?_, ?_, ?_⟩ <;> rfl

/- ## Pipeline coordinator shutdown (spec section 4.5: shutdown waits up to
     the deadline; an exporter whose final flush exceeds it is abandoned and
     logged as ShutdownTimeoutError; shutdown is best-effort and never blocks
     past the deadline) -/

/-- Modelled from the spec: the outcome of one exporter's final flush during
shutdown. -/
inductive FlushOutcome where
  | flushed
  | abandoned
deriving DecidableEq, Repr

/-- Modelled from the spec: what shutdown(deadline) produces — the time at
which it returns, the per-exporter flush outcomes, and the logged errors. -/
structure ShutdownReport where
  returnedAt : Nat
  outcomes : List FlushOutcome
  errors : List MetricError
deriving DecidableEq, Repr

/-- Modelled from the spec: `shutdown(deadline)` over exporters whose final
flushes take the given durations.  Each exporter finishing within the
deadline is flushed; one exceeding it is abandoned and a
`ShutdownTimeoutError` is logged; shutdown returns when the final flushes
finish or at the deadline, whichever comes first. -/
def shutdownRun (deadline : Nat) (flushTimes : List Nat) : ShutdownReport :=
  { returnedAt := min deadline (flushTimes.foldl max 0)
    outcomes := flushTimes.map (fun t => if t ≤ deadline then .flushed else .abandoned)
    errors := (flushTimes.filter (fun t => decide (deadline < t))).map
      (fun _ => .shutdownTimeout) }

/-- C8: shutdown never blocks past the deadline — it returns at time at most
`deadline`; every exporter gets exactly one final-flush outcome; an exporter
whose flush exceeds the deadline is abandoned with a logged
`ShutdownTimeoutError` while every exporter finishing within the deadline is
still flushed; concretely, a 2-second deadline with a 5-second in-flight
flush (alongside a 1-second one) returns at 2 seconds with the slow flush
abandoned and logged and the fast one completed. -/
theorem shutdown_deadline_best_effort :
    shutdownRun 2 [5, 1] =
      { returnedAt := 2
        outcomes := [.abandoned, .flushed]
        errors := [.shutdownTimeout] } ∧
    (∀ (deadline : Nat) (ts : List Nat),
      (shutdownRun deadline ts).returnedAt ≤ deadline ∧
      (shutdownRun deadline ts).outcomes.length = ts.length ∧
      (∀ t ∈ ts, deadline < t →
        MetricError.shutdownTimeout ∈ (shutdownRun deadline ts).errors) ∧
      (∀ p ∈ ts.zip (shutdownRun deadline ts).outcomes,
        (p.1 ≤ deadline → p.2 = FlushOutcome.flushed) ∧
        (deadline < p.1 → p.2 = FlushOutcome.abandoned))) := by
  refine ⟨by decide, ?_⟩
  intro deadline ts
  refine ⟨Nat.min_le_left _ _, by simp [shutdownRun], ?_, ?_⟩
  · intro t ht hd
    have hf : t ∈ ts.filter (fun t => decide (deadline < t)) := by
      rw [List.mem_filter]
      exact ⟨ht, by simpa using hd⟩
    exact List.mem_map_of_mem (fun _ => MetricError.shutdownTimeout) hf
  · intro p hp
    have hz : ts.zip (shutdownRun deadline ts).outcomes
        = ts.map (fun t => (t, if t ≤ deadline then FlushOutcome.flushed else .abandoned)) := by
      have := List.zip_map' (fun t : Nat => t)
        (fun t => if t ≤ deadline then FlushOutcome.flushed else .abandoned) ts
      simpa [shutdownRun] using this
    rw [hz] at hp
    obtain ⟨t, _, hpt⟩ := List.mem_map.mp hp
    subst hpt
    constructor
    · intro hle
      simp [hle]
    · intro hlt
      have : ¬ (t ≤ deadline) := by omega
      simp [this]

/-- Witness for C8's per-exporter clauses at deadline 2 and flush times
[5, 1]: the 5-second flush is abandoned and logged, the 1-second flush
completes, and shutdown returns by time 2. -/
theorem shutdown_deadline_best_effort_witness :
    (shutdownRun 2 [5, 1]).returnedAt ≤ 2 ∧
    MetricError.shutdownTimeout ∈ (shutdownRun 2 [5, 1]).errors ∧
    ((5, FlushOutcome.abandoned) : Nat × FlushOutcome).2 = FlushOutcome.abandoned ∧
    ((1, FlushOutcome.flushed) : Nat × FlushOutcome).2 = FlushOutcome.flushed :=
  ⟨(shutdown_deadline_best_effort.2 2 [5, 1]).1,
   (shutdown_deadline_best_effort.2 2 [5, 1]).2.2.1 5 (by decide) (by decide),
   ((shutdown_deadline_best_effort.2 2 [5, 1]).2.2.2 (5, .abandoned) (by decide)).2 (by decide),
   ((shutdown_deadline_best_effort.2 2 [5, 1]).2.2.2 (1, .flushed) (by decide)).1 (by decide)⟩

/- ## The whole demo store (source: createAndRecordMetrics, lines 76-140) -/

/-- The aggregation state of all five synchronous instruments the demo
records into (the ObservableGauge is callback-based and not accumulated,
spec section 3). -/
structure DemoStore where
  handledItems : Int
  queueLength : Int
  startTime : Option Int
  requestDuration : HistState
  requestCount : List (List AttrPair × Int)
deriving DecidableEq, Repr

/-- A single synchronous record call of the demo, naming the instrument it
targets. -/
inductive RecordOp where
  | addHandledItems (v : Int)
  | addQueueLength (v : Int)
  | recordStartTime (v : Int)
  | recordDuration (v : ℚ)
  | addRequestCount (attrs : List AttrPair) (v : Int)
deriving DecidableEq, Repr

/-- Apply one record call to the store, per the instrument kind's semantics. -/
def applyOp (st : DemoStore) : RecordOp → DemoStore
  | .addHandledItems v => { st with handledItems := counterStep st.handledItems v }
  | .addQueueLength v => { st with queueLength := st.queueLength + v }
  | .recordStartTime v => { st with startTime := gaugeRecord st.startTime v }
  | .recordDuration v =>
    { st with requestDuration := histRecord demoBoundaries st.requestDuration v }
  | .addRequestCount attrs v =>
    { st with requestCount := recordWithAttrs st.requestCount attrs v }

/-- The store before any recording. -/
def emptyDemoStore : DemoStore :=
  { handledItems := 0
    queueLength := 0
    startTime := none
    requestDuration := histInit demoBoundaries
    requestCount := [] }

/-- Source lines 76-140: the exact sequence of record calls issued by
`createAndRecordMetrics`, in program order, parametrized by the value the
gauge reads from `time.Now().Unix()`. -/
def startupRecords (now : Int) : List RecordOp :=
  [.addHandledItems 1, .addHandledItems 23,
   .addQueueLength 5, .addQueueLength (-2),
   .recordStartTime now,
   .recordDuration 0.023, .recordDuration 1.632,
   .recordDuration 0.345, .recordDuration 0.123,
   .addRequestCount [(.demoMethod, .get), (.demoPath, .items)] 58,
   .addRequestCount [(.demoMethod, .post), (.demoPath, .items)] 81,
   .addRequestCount [(.demoMethod, .get), (.demoPath, .users)] 33,
   .addRequestCount [(.demoMethod, .post), (.demoPath, .users)] 97]

/-- Source: the store produced by the single `createAndRecordMetrics` call at
startup. -/
def createAndRecordMetrics (now : Int) : DemoStore :=
  (startupRecords now).foldl applyOp emptyDemoStore

/-- Source: the record calls performed during collection cycle `n`.  All
recording happens in `createAndRecordMetrics` before the first cycle;
afterwards `main` only blocks on `ctx.Done()`, so no cycle after startup
performs any record call. -/
def recordsAtCycle (now : Int) (n : Nat) : List RecordOp :=
  if n = 0 then startupRecords now else []

/-- The store as seen by the snapshot of cycle `n`. -/
def storeAtCycle (now : Int) : Nat → DemoStore
  | 0 => (recordsAtCycle now 0).foldl applyOp emptyDemoStore
  | n + 1 => (recordsAtCycle now (n + 1)).foldl applyOp (storeAtCycle now n)

theorem createAndRecordMetrics_eval (now : Int) :
    createAndRecordMetrics now =
      { handledItems := 24
        queueLength := 3
        startTime := some now
        requestDuration := histRun demoBoundaries (histInit demoBoundaries) demoDurations
        requestCount := demoRequestCount } := by
  simp only [createAndRecordMetrics, startupRecords, List.foldl_cons, List.foldl_nil,
    applyOp, histRun, demoDurations, demoRequestCount, emptyDemoStore, gaugeRecord]
  norm_num [counterStep_eq]

/-- C9: all recordings into synchronous instruments happen during the single
startup call to `createAndRecordMetrics`; no later cycle performs a record
call, so the store snapshotted at every cycle equals the startup store, whose
values are fixed: `demo.handled_items` = 24, `demo.queue_length` = 3, the
four `demo.request.count` points are 58, 81, 33, 97, and the histogram count
is 4 — the measurement state is invariant from startup until shutdown. -/
theorem measurement_state_invariant :
    (∀ (now : Int) (n : Nat), storeAtCycle now n = createAndRecordMetrics now) ∧
    (∀ now : Int,
      (createAndRecordMetrics now).handledItems = 24 ∧
      (createAndRecordMetrics now).queueLength = 3 ∧
      (createAndRecordMetrics now).requestCount.map Prod.snd = [58, 81, 33, 97] ∧
      (createAndRecordMetrics now).requestDuration.count = 4) := by
  have hinv : ∀ (now : Int) (n : Nat), storeAtCycle now n = createAndRecordMetrics now := by
    intro now n
    induction n with
    | zero => rfl
    | succ m ih => simpa [storeAtCycle, recordsAtCycle] using ih
  refine ⟨hinv, ?_⟩
  intro now
  rw [createAndRecordMetrics_eval]
  have hlen0 : (histInit demoBoundaries).buckets.length = demoBoundaries.length + 1 := by
    simp [histInit]
  have hc := (histRun_inv demoBoundaries (histInit demoBoundaries) demoDurations hlen0).1
  refine ⟨rfl, rfl, ?_, ?_⟩
  · show demoRequestCount.map Prod.snd = [58, 81, 33, 97]
    decide
  · show (histRun demoBoundaries (histInit demoBoundaries) demoDurations).count = 4
    rw [hc]
    rfl

/- ## ObservableGauge (source lines 115-125; runner semantics from spec
     section 4.3) -/

/-- The opaque context passed to the callback (the source callback ignores
it). -/
structure Ctx where
deriving DecidableEq, Repr

/-- Source: the `demo.observed_value` callback — it observes the constant 23
via `result.Observe(23)` and returns a nil error. -/
def observedValueCallback (_ctx : Ctx) : List Int × Option MetricError :=
  ([23], none)

/-- Modelled from the spec: the Observable Callback Runner for one cycle — a
callback error (or timeout) contributes a missing data point for the
instrument this cycle; otherwise the observed values become the cycle's data
points. -/
def runObservableCycle (cb : Ctx → List Int × Option MetricError) (ctx : Ctx) :
    Option (List Int) :=
  match cb ctx with
  | (_, some _) => none
  | (vs, none) => some vs

/-- C10: the `demo.observed_value` callback is a total function that, on any
context, observes exactly the constant 23 and returns no error; hence on
every cycle the callback runner produces the data point 23 and never the
missing-data-point outcome — the callback-error handling path is unreachable
for this program. -/
theorem observable_gauge_constant :
    (∀ ctx : Ctx, observedValueCallback ctx = ([23], none)) ∧
    (∀ ctx : Ctx, runObservableCycle observedValueCallback ctx = some [23]) ∧
    (∀ ctx : Ctx, (runObservableCycle observedValueCallback ctx).isSome = true) :=
  ⟨fun _ => rfl, fun _ => rfl, fun _ => rfl⟩
